import Mathlib

/-!
# Verification of the matrix-market-rs parser

Shallow embedding of `src/lib.rs` of the `matrix-market-rs` crate.

Modelling conventions:
- A file is a `List (List Char)` of lines, each given without its trailing
  newline; `BufReader::read_line` appends the line plus `'\n'` to the buffer
  and returns a positive byte count, returning `0` exactly at end of input.
  This is modelled by consuming the head of the list (appending `['\n']`)
  and by the empty list (end of input).
- `usize` values are `Nat` with the 64-bit bound made explicit where the
  source can overflow or underflow: `usize::from_str` rejects values of
  `2^64` or more, and the unchecked `num - 1` in `parse_coords_val` is
  modelled as wrapping subtraction modulo `2^64` (release-profile Rust
  semantics for unsigned underflow).
- A Rust panic (out-of-bounds array indexing such as `dims[i]` with
  `i > NDIM`) is modelled by the explicit outcome `PResult.panic`.
- The generic scalar type `T: Num` and its `from_str_radix(_, 10)` are
  modelled by a type parameter `T` together with a token parser
  `parseT : List Char → Option T`; `i32_from_str_radix` instantiates it
  the way the crate's tests do (`MtxData<i32>`).
-/

/-- Embeds the `MtxError` enum of `src/lib.rs`. The `io::Error` and
`ParseIntError` payloads carry no information the parser inspects and are
dropped. -/
inductive MtxError where
  | IoError
  | EarlyEOF
  | EarlyBannerEnd
  | EarlyLineEnd
  | EarlySizesHeaderEnd
  | UnsupportedSym (s : String)
  | UnsupportedNumType (s : String)
  | UnsupportedLayout (s : String)
  | InvalidNum (s : String)
  | InvalidCoordinate
  deriving DecidableEq

/-- Outcome of a Rust function returning `Result<α, MtxError>`, extended with
an explicit `panic` outcome for runtime panics (array index out of bounds). -/
inductive PResult (α : Type) where
  | ok : α → PResult α
  | err : MtxError → PResult α
  | panic : PResult α
  deriving DecidableEq

/-- Embeds the `SymInfo` enum of `src/lib.rs`. -/
inductive SymInfo where
  | General
  | Symmetric
  deriving DecidableEq

/-- Embeds the `MtxData` enum of `src/lib.rs`; the `[usize; NDIM]` arrays
become lists of length `NDIM`. -/
inductive MtxData (T : Type) where
  | Dense (dims : List Nat) (values : List T) (sym : SymInfo)
  | Sparse (dims : List Nat) (coords : List (List Nat)) (values : List T) (sym : SymInfo)
  deriving DecidableEq

/-- The whitespace predicate used to tokenize lines (the ASCII cases of
Rust's `char::is_whitespace`, the only ones the format produces). -/
def isWS (c : Char) : Bool :=
  decide (c = ' ' ∨ c = '\t' ∨ c = '\r' ∨ c = '\n')

/-- An ASCII decimal digit, as accepted by Rust's integer parsers. -/
def isDigitC (c : Char) : Bool :=
  decide ('0' ≤ c ∧ c ≤ '9')

/-- Accumulator-based splitter behind `splitWhitespace`; `acc` holds the
reversed characters of the token currently being read. -/
def splitWSAux : List Char → List Char → List (List Char)
  | [], acc => if acc = [] then [] else [acc.reverse]
  | c :: cs, acc =>
    if isWS c then
      (if acc = [] then splitWSAux cs [] else acc.reverse :: splitWSAux cs [])
    else
      splitWSAux cs (c :: acc)

/-- Embeds `str::split_whitespace`: maximal runs of non-whitespace
characters, in order; empty tokens never occur. -/
def splitWhitespace (s : List Char) : List (List Char) :=
  splitWSAux s []

/-- Embeds `str::trim_end` (trailing-whitespace removal). -/
def trimEndList (s : List Char) : List Char :=
  (s.reverse.dropWhile isWS).reverse

/-- Number denoted by a list of ASCII digits, most significant first. -/
def digitsToNat (t : List Char) : Nat :=
  t.foldl (fun a c => 10 * a + (c.toNat - 48)) 0

/-- One more than `usize::MAX` on the 64-bit targets the crate is built for,
that is `2 ^ 64` written as a numeral. -/
def USIZE_BOUND : Nat := 18446744073709551616

/-- Removal of the single optional leading `+` sign accepted by
`from_str_radix` for an unsigned type. -/
def stripPlus (t : List Char) : List Char :=
  match t with
  | [] => []
  | c :: r => if c = '+' then r else c :: r

/-- Embeds `usize::from_str` (`from_str_radix(_, 10)` for an unsigned type):
an optional leading `+`, then one or more ASCII digits, rejecting the empty
string, any other character, and values that overflow `usize`. -/
def usizeFromStr (t : List Char) : Option Nat :=
  if stripPlus t ≠ [] ∧ (stripPlus t).all isDigitC then
    (if digitsToNat (stripPlus t) < USIZE_BOUND then some (digitsToNat (stripPlus t)) else none)
  else
    none

/-- Embeds `i32::from_str_radix(_, 10)`, the scalar parser the crate's tests
use through `MtxData<i32>`: optional sign, ASCII digits, `i32` bounds. -/
def i32_from_str_radix (t : List Char) : Option Int :=
  match t with
  | '+' :: r =>
    if r ≠ [] ∧ r.all isDigitC then
      (if digitsToNat r ≤ 2147483647 then some (Int.ofNat (digitsToNat r)) else none)
    else none
  | '-' :: r =>
    if r ≠ [] ∧ r.all isDigitC then
      (if digitsToNat r ≤ 2147483648 then some (-(Int.ofNat (digitsToNat r))) else none)
    else none
  | _ =>
    if t ≠ [] ∧ t.all isDigitC then
      (if digitsToNat t ≤ 2147483647 then some (Int.ofNat (digitsToNat t)) else none)
    else none

/-- Embeds `SymInfo::from_str` of `src/lib.rs`: trim trailing whitespace,
accept exactly `general` and `symmetric`, and report any other (trimmed)
token inside `UnsupportedSym`. -/
def SymInfo.fromStr (s : List Char) : PResult SymInfo :=
  let t := trimEndList s
  if t = "general".data then .ok .General
  else if t = "symmetric".data then .ok .Symmetric
  else .err (.UnsupportedSym (String.mk t))

/-- Work done by `parse_banner` on the single line it reads: skip the first
two whitespace tokens, compare token 2 with `coordinate`, fetch and discard
token 3 (its absence is computed into the unused `_type` binding and never
propagated), and parse token 4 as the symmetry tag. -/
def parse_banner_line (l : List Char) : PResult (Bool × SymInfo) :=
  match (splitWhitespace (l ++ ['\n'])).drop 2 with
  | [] => .err .EarlyBannerEnd
  | t2 :: rest =>
    let is_sparse := t2 = "coordinate".data
    match rest.drop 1 with
    | [] => .err .EarlyBannerEnd
    | t4 :: _ =>
      match SymInfo.fromStr t4 with
      | .ok sym => .ok (is_sparse, sym)
      | .err e => .err e
      | .panic => .panic

/-- Embeds `parse_banner` of `src/lib.rs`: read one line (end of input is
`EarlyEOF`), analyse it with `parse_banner_line`, and hand back the rest of
the input. -/
def parse_banner (lines : List (List Char)) : PResult ((Bool × SymInfo) × List (List Char)) :=
  match lines with
  | [] => .err .EarlyEOF
  | l :: ls =>
    match parse_banner_line l with
    | .ok r => .ok (r, ls)
    | .err e => .err e
    | .panic => .panic

/-- Whether the buffer read from a line starts with the `COMMENT` marker
(`buf.starts_with('%')` in the source). -/
def starts_with_comment (buf : List Char) : Bool :=
  match buf with
  | [] => false
  | c :: _ => c = '%'

/-- Embeds `skip_comments` of `src/lib.rs`: drop consecutive lines starting
with `%`; end of input before a non-comment line is `EarlyEOF`; otherwise
return the first non-comment line (as the read buffer, newline included)
together with the remaining input. -/
def skip_comments : List (List Char) → PResult (List Char × List (List Char))
  | [] => .err .EarlyEOF
  | l :: ls =>
    if starts_with_comment (l ++ ['\n']) then skip_comments ls
    else .ok (l ++ ['\n'], ls)

/-- Token loop of `parse_sizes`: `i` is the enumeration index; a token at
`i = NDIM` becomes the `nnz` value, a token at `i < NDIM` is written into
`dims`, and a token at `i > NDIM` reproduces the source's out-of-bounds
write `dims[i] = num`, a panic. Tokens are parsed as `usize` first; a parse
failure is `InvalidCoordinate` (via `impl From<ParseIntError>`). -/
def parse_sizes_loop (NDIM : Nat) :
    List (List Char) → Nat → List Nat → Option Nat → PResult (List Nat × Option Nat)
  | [], _, dims, nnz => .ok (dims, nnz)
  | t :: ts, i, dims, nnz =>
    match usizeFromStr t with
    | none => .err .InvalidCoordinate
    | some num =>
      if i = NDIM then parse_sizes_loop NDIM ts (i + 1) dims (some num)
      else if i < NDIM then parse_sizes_loop NDIM ts (i + 1) (dims.set i num) nnz
      else .panic

/-- Embeds `parse_sizes` of `src/lib.rs`: tokenize the buffered header line,
run the token loop on `dims = [0; NDIM]`, then reject any zero dimension
with `EarlySizesHeaderEnd`. -/
def parse_sizes (NDIM : Nat) (buf : List Char) : PResult (List Nat × Option Nat) :=
  match parse_sizes_loop NDIM (splitWhitespace buf) 0 (List.replicate NDIM 0) none with
  | .ok (dims, nnz) =>
    if dims.any (fun d => d == 0) then .err .EarlySizesHeaderEnd else .ok (dims, nnz)
  | .err e => .err e
  | .panic => .panic

/-- Token loop of `parse_coords_val`: the token at `i = NDIM` is parsed as a
scalar (failure is `InvalidNum` carrying the token); any other token is
parsed as `usize` (failure is `InvalidCoordinate`) and, for `i < NDIM`,
stored decremented by one with the 64-bit wrap of `num - 1` made explicit;
a token at `i > NDIM` reproduces the out-of-bounds write `dims[i]`, a
panic. -/
def parse_coords_val_loop {T : Type} (NDIM : Nat) (parseT : List Char → Option T) :
    List (List Char) → Nat → List Nat → Option T → PResult (List Nat × Option T)
  | [], _, dims, value => .ok (dims, value)
  | t :: ts, i, dims, value =>
    if i = NDIM then
      match parseT t with
      | none => .err (.InvalidNum (String.mk t))
      | some v => parse_coords_val_loop NDIM parseT ts (i + 1) dims (some v)
    else
      match usizeFromStr t with
      | none => .err .InvalidCoordinate
      | some num =>
        if i < NDIM then
          parse_coords_val_loop NDIM parseT ts (i + 1)
            (dims.set i ((num + (USIZE_BOUND - 1)) % USIZE_BOUND)) value
        else .panic

/-- Embeds `parse_coords_val` of `src/lib.rs`: tokenize the buffered line,
run the token loop, and fail with `EarlyLineEnd` when no value token (index
`NDIM`) was seen. -/
def parse_coords_val {T : Type} (NDIM : Nat) (parseT : List Char → Option T)
    (buf : List Char) : PResult (List Nat × T) :=
  match parse_coords_val_loop NDIM parseT (splitWhitespace buf) 0 (List.replicate NDIM 0) none with
  | .ok (dims, some v) => .ok (dims, v)
  | .ok (_, none) => .err .EarlyLineEnd
  | .err e => .err e
  | .panic => .panic

/-- Embeds `parse_sparse_coo` of `src/lib.rs`: read exactly `nnz` lines,
failing with `EarlyEOF` when the input ends first, and parse each with
`parse_coords_val`, accumulating coordinates and values in file order. -/
def parse_sparse_coo {T : Type} (NDIM : Nat) (parseT : List Char → Option T) :
    Nat → List (List Char) → PResult (List (List Nat) × List T)
  | 0, _ => .ok ([], [])
  | _ + 1, [] => .err .EarlyEOF
  | nnz + 1, l :: ls =>
    match parse_coords_val NDIM parseT (l ++ ['\n']) with
    | .err e => .err e
    | .panic => .panic
    | .ok (coords, val) =>
      match parse_sparse_coo NDIM parseT nnz ls with
      | .ok (cs, vs) => .ok (coords :: cs, val :: vs)
      | .err e => .err e
      | .panic => .panic

/-- Embeds `parse_dense_vec` of `src/lib.rs`: read exactly `capacity` lines,
failing with `EarlyEOF` when the input ends first; each buffered line is
trimmed at the end and parsed as one scalar, an unparsable line giving
`InvalidNum` carrying the whole buffer (`buf.clone()` in the source). -/
def parse_dense_vec {T : Type} (parseT : List Char → Option T) :
    Nat → List (List Char) → PResult (List T)
  | 0, _ => .ok []
  | _ + 1, [] => .err .EarlyEOF
  | cap + 1, l :: ls =>
    match parseT (trimEndList (l ++ ['\n'])) with
    | none => .err (.InvalidNum (String.mk (l ++ ['\n'])))
    | some v =>
      match parse_dense_vec parseT cap ls with
      | .ok vs => .ok (v :: vs)
      | .err e => .err e
      | .panic => .panic

/-- Embeds `dims.iter().product()` used to size the dense body. -/
def dims_product (dims : List Nat) : Nat :=
  dims.foldl (fun a b => a * b) 1

/-- Embeds `MtxData::from_file` of `src/lib.rs` over the line-source model:
banner, comment skipping, size header, then the sparse or dense body parser,
each failure aborting the parse. -/
def from_file {T : Type} (NDIM : Nat) (parseT : List Char → Option T)
    (lines : List (List Char)) : PResult (MtxData T) :=
  match parse_banner lines with
  | .err e => .err e
  | .panic => .panic
  | .ok ((is_sparse, sym), ls1) =>
    match skip_comments ls1 with
    | .err e => .err e
    | .panic => .panic
    | .ok (buf, ls2) =>
      match parse_sizes NDIM buf with
      | .err e => .err e
      | .panic => .panic
      | .ok (dims, nnz) =>
        if is_sparse then
          match nnz with
          | none => .err .EarlySizesHeaderEnd
          | some n =>
            match parse_sparse_coo NDIM parseT n ls2 with
            | .ok (indices, values) => .ok (.Sparse dims indices values sym)
            | .err e => .err e
            | .panic => .panic
        else
          match parse_dense_vec parseT (dims_product dims) ls2 with
          | .ok values => .ok (.Dense dims values sym)
          | .err e => .err e
          | .panic => .panic

/-- The non-zero count announced by the size-header line of a file, read off
by the same banner/comment/header pipeline as `from_file`. -/
def declared_nnz (NDIM : Nat) (lines : List (List Char)) : Option Nat :=
  match parse_banner lines with
  | .ok (_, ls1) =>
    match skip_comments ls1 with
    | .ok (buf, _) =>
      match parse_sizes NDIM buf with
      | .ok (_, nnz) => nnz
      | _ => none
    | _ => none
  | _ => none

/-- A comment line (it begins with `%`) or a blank line (whitespace only),
the line classes of the empty/comment-only boundary property. -/
def comment_or_blank (l : List Char) : Prop :=
  (∃ r, l = '%' :: r) ∨ (∀ c ∈ l, isWS c = true)

example : splitWhitespace ("  a bc ".data) = ["a".data, "bc".data] := by decide
example : usizeFromStr "42".data = some 42 := by decide
example : usizeFromStr "18446744073709551616".data = none := by decide
example :
    from_file 2 i32_from_str_radix
      ["%%MatrixMarket matrix coordinate integer symmetric".data,
       "2 2 2".data, "1 1 3".data, "2 2 4".data]
      = .ok (.Sparse [2, 2] [[0, 0], [1, 1]] [3, 4] .Symmetric) := by decide

/-! ## Helper lemmas -/

theorem isDigitC_not_ws {c : Char} (h : isDigitC c = true) : isWS c = false := by
  rcases hws : isWS c with _ | _
  · rfl
  · unfold isWS at hws
    rw [decide_eq_true_eq] at hws
    rcases hws with rfl | rfl | rfl | rfl <;> exact absurd h (by decide)

theorem splitWSAux_token_run (a : List Char) :
    ∀ (cs acc : List Char), (∀ c ∈ a, isWS c = false) →
      splitWSAux (a ++ cs) acc = splitWSAux cs (a.reverse ++ acc) := by
  induction a with
  | nil => intro cs acc _; simp
  | cons c a ih =>
    intro cs acc h
    have hc : isWS c = false := h c (List.mem_cons_self c a)
    simp only [List.cons_append, splitWSAux, hc, Bool.false_eq_true, if_false,
      List.append_eq]
    rw [ih cs (c :: acc) (fun x hx => h x (List.mem_cons_of_mem c hx))]
    simp

theorem splitWSAux_tokens_no_ws :
    ∀ (cs acc : List Char), (∀ c ∈ acc, isWS c = false) →
      ∀ t ∈ splitWSAux cs acc, ∀ c ∈ t, isWS c = false := by
  intro cs
  induction cs with
  | nil =>
    intro acc hacc t ht c hc
    simp only [splitWSAux] at ht
    split at ht
    · simp at ht
    · rw [List.mem_singleton] at ht
      subst ht
      exact hacc c (List.mem_reverse.mp hc)
  | cons d cs ih =>
    intro acc hacc t ht
    simp only [splitWSAux] at ht
    split at ht
    · rename_i hd
      split at ht
      · exact ih [] (by simp) t ht
      · rcases List.mem_cons.mp ht with rfl | hmem
        · intro c hc; exact hacc c (List.mem_reverse.mp hc)
        · exact ih [] (by simp) t hmem
    · rename_i hd
      refine ih (d :: acc) ?_ t ht
      intro x hx
      rcases List.mem_cons.mp hx with rfl | hx
      · exact Bool.not_eq_true _ |>.mp hd
      · exact hacc x hx

theorem splitWhitespace_tokens_no_ws (s : List Char) :
    ∀ t ∈ splitWhitespace s, ∀ c ∈ t, isWS c = false :=
  splitWSAux_tokens_no_ws s [] (by simp)

theorem splitWSAux_all_ws (cs : List Char) (h : ∀ c ∈ cs, isWS c = true) :
    splitWSAux cs [] = [] := by
  induction cs with
  | nil => rfl
  | cons c cs ih =>
    simp only [splitWSAux, h c (List.mem_cons_self c cs), if_true]
    exact ih (fun x hx => h x (List.mem_cons_of_mem c hx))

theorem trimEndList_of_no_ws (t : List Char) (h : ∀ c ∈ t, isWS c = false) :
    trimEndList t = t := by
  have hdrop : List.dropWhile isWS t.reverse = t.reverse := by
    cases hr : t.reverse with
    | nil => rfl
    | cons c r =>
      have hc : c ∈ t := by
        rw [← List.mem_reverse, hr]
        exact List.mem_cons_self c r
      rw [List.dropWhile_cons, if_neg (by simp [h c hc])]
  unfold trimEndList
  rw [hdrop, List.reverse_reverse]

theorem usizeFromStr_bound {t : List Char} {n : Nat} (h : usizeFromStr t = some n) :
    n < USIZE_BOUND := by
  unfold usizeFromStr at h
  split at h
  · split at h
    · rename_i hlt
      rw [Option.some.injEq] at h
      exact h ▸ hlt
    · exact absurd h (by simp)
  · exact absurd h (by simp)

theorem usizeFromStr_shape {t : List Char} {n : Nat} (h : usizeFromStr t = some n) :
    t ≠ [] ∧ ∀ c ∈ t, isWS c = false := by
  unfold usizeFromStr at h
  split at h
  · rename_i hcond
    obtain ⟨hne, hall⟩ := hcond
    rw [List.all_eq_true] at hall
    cases t with
    | nil => simp [stripPlus] at hne
    | cons a r =>
      refine ⟨by simp, ?_⟩
      intro c hc
      by_cases ha : a = '+'
      · subst ha
        rw [show stripPlus ('+' :: r) = r from by simp [stripPlus]] at hall
        rcases List.mem_cons.mp hc with rfl | hcr
        · decide
        · exact isDigitC_not_ws (hall c hcr)
      · rw [show stripPlus (a :: r) = a :: r from by simp [stripPlus, ha]] at hall
        exact isDigitC_not_ws (hall c hc)
  · exact absurd h (by simp)

/-! ## Claim theorems: concrete evaluations -/

/-- Claim C1: the spec requires a sparse body line with a `0` coordinate
token to be rejected with a distinct `InvalidCoordinate` error. The code has
no such guard: on the line `0 1 5` the token `0` parses as a `usize` and the
1-based to 0-based decrement underflows silently, so the parse returns `Ok`
with the coordinate wrapped to `2^64 - 1` instead of the required error (a
code bug: the crate's own spec calls the missing guard a defect). -/
theorem C1_underflow_eval :
    parse_coords_val 2 i32_from_str_radix ("0 1 5".data ++ ['\n'])
      = .ok ([18446744073709551615, 0], (5 : Int)) := by decide

/-- Claim C2: the claim says `parse_sizes` and `parse_coords_val` always
return a `Result` and never index `dims` out of bounds. On any line with
more than `NDIM + 1` parseable tokens (here `1 2 3 4` with `NDIM = 2`) both
functions execute `dims[i]` with `i > NDIM` and panic (a code bug: the
library is otherwise `Result`-returning on malformed input). -/
theorem C2_panic_eval :
    parse_sizes 2 ("1 2 3 4".data ++ ['\n']) = .panic ∧
    parse_coords_val 2 i32_from_str_radix ("1 2 3 4".data ++ ['\n']) = .panic :=
  ⟨by decide, by decide⟩

/-- Claim C5, counterexample: after a sparse banner, the size-header line
`10 10 0` does not fail with `EarlySizesHeaderEnd` as claimed; the `0` is
the declared non-zero count, the dimensions are positive, and the parse
succeeds with an empty sparse matrix. -/
theorem C5_counterexample :
    from_file 2 i32_from_str_radix
      ["%%MatrixMarket matrix coordinate integer general".data, "10 10 0".data]
      = .ok (.Sparse [10, 10] [] [] .General) := by decide

/-- Claim C5, amended: with a sparse banner it is the size-header `10 10`,
whose non-zero-count token is missing, that makes `from_file` fail with
`EarlySizesHeaderEnd`; the header `10 10 0` declares zero non-zeros and
succeeds with an empty sparse matrix. -/
theorem C5_amended_missing_nnz :
    from_file 2 i32_from_str_radix
      ["%%MatrixMarket matrix coordinate integer general".data, "10 10".data]
      = .err .EarlySizesHeaderEnd ∧
    from_file 2 i32_from_str_radix
      ["%%MatrixMarket matrix coordinate integer general".data, "10 10 0".data]
      = .ok (.Sparse [10, 10] [] [] .General) :=
  ⟨by decide, by decide⟩

/-- Claim C4, counterexample: prefixing a `%`-line before the banner changes
the parse result. The file parses to an `Ok` sparse matrix, but with `% x`
prepended the comment line itself is read as the banner and the parse fails
with `EarlyBannerEnd`. -/
theorem C4_counterexample :
    from_file 2 i32_from_str_radix
      ["% x".data, "%%MatrixMarket matrix coordinate integer general".data,
       "1 1 1".data, "1 1 5".data]
      = .err .EarlyBannerEnd ∧
    from_file 2 i32_from_str_radix
      ["%%MatrixMarket matrix coordinate integer general".data,
       "1 1 1".data, "1 1 5".data]
      = .ok (.Sparse [1, 1] [[0, 0]] [5] .General) :=
  ⟨by decide, by decide⟩

/-- Claim C6, counterexample: a file consisting of one comment line fails
with `EarlyBannerEnd`, not with the `EarlyEOF` error the claim states,
because `parse_banner` reads the first line as the banner unconditionally. -/
theorem C6_counterexample :
    from_file 2 i32_from_str_radix ["% hello".data] = .err .EarlyBannerEnd := by
  decide

/-- Claim C7, counterexample: on the sparse body line
`18446744073709551616 1 5` the first coordinate token is the integer
`2^64 ≥ 1` and the value token parses, yet the parse does not return the
coordinate pair `[i - 1, j - 1]`: `usize::from_str` overflows and the line
is rejected with `InvalidCoordinate`. -/
theorem C7_counterexample :
    parse_coords_val 2 i32_from_str_radix
      ("18446744073709551616 1 5".data ++ ['\n'])
      = .err .InvalidCoordinate := by decide

theorem parse_sparse_coo_length {T : Type} (NDIM : Nat) (parseT : List Char → Option T) :
    ∀ (n : Nat) (ls : List (List Char)) (cs : List (List Nat)) (vs : List T),
      parse_sparse_coo NDIM parseT n ls = .ok (cs, vs) →
      cs.length = n ∧ vs.length = n := by
  intro n
  induction n with
  | zero =>
    intro ls cs vs h
    simp only [parse_sparse_coo, PResult.ok.injEq, Prod.mk.injEq] at h
    obtain ⟨h1, h2⟩ := h
    subst h1
    subst h2
    exact ⟨rfl, rfl⟩
  | succ k ih =>
    intro ls cs vs h
    cases ls with
    | nil => simp [parse_sparse_coo] at h
    | cons l ls =>
      simp only [parse_sparse_coo] at h
      split at h
      · simp at h
      · simp at h
      · split at h
        · rename_i coords val heq cs2 vs2 heq2
          rw [PResult.ok.injEq, Prod.mk.injEq] at h
          obtain ⟨h1, h2⟩ := h
          subst h1
          subst h2
          obtain ⟨ih1, ih2⟩ := ih ls cs2 vs2 heq2
          exact ⟨by simp [ih1], by simp [ih2]⟩
        · simp at h
        · simp at h

theorem parse_dense_vec_length {T : Type} (parseT : List Char → Option T) :
    ∀ (cap : Nat) (ls : List (List Char)) (vs : List T),
      parse_dense_vec parseT cap ls = .ok vs → vs.length = cap := by
  intro cap
  induction cap with
  | zero =>
    intro ls vs h
    simp only [parse_dense_vec, PResult.ok.injEq] at h
    subst h
    rfl
  | succ k ih =>
    intro ls vs h
    cases ls with
    | nil => simp [parse_dense_vec] at h
    | cons l ls =>
      simp only [parse_dense_vec] at h
      split at h
      · simp at h
      · split at h
        · rename_i v heq vs2 heq2
          rw [PResult.ok.injEq] at h
          subst h
          simp [ih ls vs2 heq2]
        · simp at h
        · simp at h

/-- Claim C3: whenever `from_file` succeeds, a sparse result carries exactly
as many coordinates as values, both matching the non-zero count declared in
the size header, and a dense result carries exactly `dims.product()`
values. -/
theorem C3_cardinality_invariant {T : Type} (NDIM : Nat)
    (parseT : List Char → Option T) (lines : List (List Char)) (r : MtxData T)
    (h : from_file NDIM parseT lines = .ok r) :
    (∀ dims coords values sym, r = .Sparse dims coords values sym →
        coords.length = values.length ∧
        declared_nnz NDIM lines = some coords.length) ∧
    (∀ dims values sym, r = .Dense dims values sym →
        values.length = dims_product dims) := by
  unfold from_file at h
  split at h
  · simp at h
  · simp at h
  · rename_i p is_sparse sym ls1 hban
    split at h
    · simp at h
    · simp at h
    · rename_i q buf ls2 hskip
      split at h
      · simp at h
      · simp at h
      · rename_i q2 dims nnz hsizes
        split at h
        · -- sparse branch
          split at h
          · simp at h
          · rename_i x n
            split at h
            · rename_i y indices values hcoo
              rw [PResult.ok.injEq] at h
              subst h
              constructor
              · intro d c v s hr
                rw [MtxData.Sparse.injEq] at hr
                obtain ⟨hd, hc, hv, hs⟩ := hr
                obtain ⟨h1, h2⟩ :=
                  parse_sparse_coo_length NDIM parseT n ls2 indices values hcoo
                rw [← hc, ← hv]
                refine ⟨by rw [h1, h2], ?_⟩
                simp only [declared_nnz, hban, hskip, hsizes, h1]
              · intro d v s hr
                simp at hr
            · simp at h
            · simp at h
        · -- dense branch
          split at h
          · rename_i y values hdense
            rw [PResult.ok.injEq] at h
            subst h
            constructor
            · intro d c v s hr
              simp at hr
            · intro d v s hr
              rw [MtxData.Dense.injEq] at hr
              obtain ⟨hd, hv, hs⟩ := hr
              rw [← hd, ← hv]
              exact parse_dense_vec_length parseT (dims_product dims) ls2 values hdense
          · simp at h
          · simp at h

/-- Claim C3, witness at the spec's concrete sparse scenario. -/
theorem C3_cardinality_witness :
    ([[0, 0], [1, 1]] : List (List Nat)).length = ([3, 4] : List Int).length ∧
    declared_nnz 2
      ["%%MatrixMarket matrix coordinate integer symmetric".data,
       "2 2 2".data, "1 1 3".data, "2 2 4".data] = some 2 :=
  (C3_cardinality_invariant 2 i32_from_str_radix
      ["%%MatrixMarket matrix coordinate integer symmetric".data,
       "2 2 2".data, "1 1 3".data, "2 2 4".data]
      (.Sparse [2, 2] [[0, 0], [1, 1]] [3, 4] .Symmetric)
      (by decide)).1 [2, 2] [[0, 0], [1, 1]] [3, 4] .Symmetric rfl

/-- Claim C8: the sparse body loop is bounded by the declared non-zero
count: with fewer (well-formed) body lines than `nnz` it fails with
`EarlyEOF`, and any lines beyond the first `nnz` are never read, so they do
not affect the result. -/
theorem C8_exact_nnz_lines {T : Type} (NDIM : Nat) (parseT : List Char → Option T) :
    (∀ (nnz : Nat) (ls : List (List Char)),
        (∀ l ∈ ls, ∃ cv, parse_coords_val NDIM parseT (l ++ ['\n']) = .ok cv) →
        ls.length < nnz →
        parse_sparse_coo NDIM parseT nnz ls = .err .EarlyEOF) ∧
    (∀ (nnz : Nat) (ls extra : List (List Char)),
        nnz ≤ ls.length →
        parse_sparse_coo NDIM parseT nnz (ls ++ extra) =
          parse_sparse_coo NDIM parseT nnz ls) := by
  constructor
  · intro nnz
    induction nnz with
    | zero => intro ls _ hlen; exact absurd hlen (Nat.not_lt_zero _)
    | succ k ih =>
      intro ls hok hlen
      cases ls with
      | nil => rfl
      | cons l ls =>
        obtain ⟨cv, hcv⟩ := hok l (List.mem_cons_self l ls)
        obtain ⟨c0, v0⟩ := cv
        simp only [parse_sparse_coo, hcv]
        rw [ih ls (fun x hx => hok x (List.mem_cons_of_mem l hx))
          (by simp only [List.length_cons] at hlen; omega)]
  · intro nnz
    induction nnz with
    | zero => intro ls extra _; rfl
    | succ k ih =>
      intro ls extra hlen
      cases ls with
      | nil => simp at hlen
      | cons l ls =>
        simp only [List.cons_append, parse_sparse_coo, List.append_eq]
        rw [ih ls extra (by simp only [List.length_cons] at hlen; omega)]

/-- Claim C8, witness: `nnz = 5` with only 3 body lines fails with
`EarlyEOF`, and appending an extra line beyond the `nnz = 2` consumed ones
leaves the result unchanged. -/
theorem C8_exact_nnz_witness :
    parse_sparse_coo 2 i32_from_str_radix 5
      ["1 1 1".data, "2 2 2".data, "3 3 3".data] = .err .EarlyEOF ∧
    parse_sparse_coo 2 i32_from_str_radix 2
      (["1 1 1".data, "2 2 2".data] ++ ["9 9 9".data]) =
      parse_sparse_coo 2 i32_from_str_radix 2 ["1 1 1".data, "2 2 2".data] := by
  constructor
  · refine (C8_exact_nnz_lines 2 i32_from_str_radix).1 5 _ ?_ (by decide)
    intro l hl
    simp only [List.mem_cons, List.not_mem_nil, or_false] at hl
    rcases hl with rfl | rfl | rfl
    · exact ⟨([0, 0], (1 : Int)), by decide⟩
    · exact ⟨([1, 1], (2 : Int)), by decide⟩
    · exact ⟨([2, 2], (3 : Int)), by decide⟩
  · exact (C8_exact_nnz_lines 2 i32_from_str_radix).2 2 _ _ (by decide)

theorem parse_banner_line_short (l : List Char)
    (h : (splitWhitespace (l ++ ['\n'])).length < 5) :
    parse_banner_line l = .err .EarlyBannerEnd := by
  unfold parse_banner_line
  rcases hd : (splitWhitespace (l ++ ['\n'])).drop 2 with _ | ⟨t2, rest⟩
  · rfl
  · rcases rest with _ | ⟨t3, rest2⟩
    · rfl
    · have hlen := congrArg List.length hd
      rw [List.length_drop] at hlen
      simp only [List.length_cons] at hlen
      have h0 : rest2.length = 0 := by omega
      rw [List.length_eq_zero] at h0
      subst h0
      rfl

/-- Claim C9: a banner line whose whitespace tokenization has fewer than 5
tokens (token 2, 3 or 4 missing) makes `parse_banner` fail with
`EarlyBannerEnd`. -/
theorem C9_early_banner_end (l : List Char) (ls : List (List Char))
    (h : (splitWhitespace (l ++ ['\n'])).length < 5) :
    parse_banner (l :: ls) = .err .EarlyBannerEnd := by
  simp only [parse_banner]
  rw [parse_banner_line_short l h]

/-- Claim C9, witness: a banner with only 3 tokens. -/
theorem C9_witness :
    parse_banner ["%%MatrixMarket matrix coordinate".data] = .err .EarlyBannerEnd :=
  C9_early_banner_end "%%MatrixMarket matrix coordinate".data [] (by decide)

/-- Claim C10: a banner line whose symmetry token (token 4) is neither
`general` nor `symmetric` makes the parse fail with `UnsupportedSym`
carrying exactly that token. -/
theorem C10_unsupported_sym (l : List Char) (ls : List (List Char))
    (t0 t1 t2 t3 t4 : List Char) (rest : List (List Char))
    (h : splitWhitespace (l ++ ['\n']) = t0 :: t1 :: t2 :: t3 :: t4 :: rest)
    (hg : t4 ≠ "general".data) (hs : t4 ≠ "symmetric".data) :
    parse_banner (l :: ls) = .err (.UnsupportedSym (String.mk t4)) := by
  have ht4 : trimEndList t4 = t4 :=
    trimEndList_of_no_ws t4
      (splitWhitespace_tokens_no_ws (l ++ ['\n']) t4 (by rw [h]; simp))
  simp only [parse_banner, parse_banner_line]
  rw [h]
  simp only [List.drop_succ_cons, List.drop_zero]
  simp [SymInfo.fromStr, ht4, hg, hs]

/-- Claim C10, witness at the spec's `hermitian` scenario. -/
theorem C10_witness :
    parse_banner ["%%MatrixMarket matrix coordinate integer hermitian".data]
      = .err (.UnsupportedSym "hermitian") :=
  C10_unsupported_sym "%%MatrixMarket matrix coordinate integer hermitian".data []
    "%%MatrixMarket".data "matrix".data "coordinate".data "integer".data
    "hermitian".data [] (by decide) (by decide) (by decide)

theorem skip_comments_append (comments rest : List (List Char))
    (h : ∀ c ∈ comments, ∃ r, c = '%' :: r) :
    skip_comments (comments ++ rest) = skip_comments rest := by
  induction comments with
  | nil => rfl
  | cons c cs ih =>
    obtain ⟨r, rfl⟩ := h c (List.mem_cons_self c cs)
    simp only [List.cons_append, skip_comments, starts_with_comment, decide_True,
      if_true]
    exact ih (fun x hx => h x (List.mem_cons_of_mem _ hx))

/-- Claim C4, amended: inserting `%`-comment lines between the banner line
and the size-header line leaves the parse result unchanged; comments before
the banner are not transparent, because the first line is always read as
the banner (see the counterexample). -/
theorem C4_amended_comment_transparency {T : Type} (NDIM : Nat)
    (parseT : List Char → Option T) (banner : List Char)
    (comments rest : List (List Char))
    (h : ∀ c ∈ comments, ∃ r, c = '%' :: r) :
    from_file NDIM parseT (banner :: (comments ++ rest)) =
      from_file NDIM parseT (banner :: rest) := by
  unfold from_file
  simp only [parse_banner]
  cases hb : parse_banner_line banner with
  | ok p =>
    obtain ⟨is_sparse, sym⟩ := p
    simp only [skip_comments_append comments rest h]
  | err e => rfl
  | panic => rfl

/-- Claim C4, amended, witness: one comment line between banner and sizes. -/
theorem C4_amended_witness :
    from_file 2 i32_from_str_radix
      ["%%MatrixMarket matrix coordinate integer general".data,
       "% note".data, "1 1 1".data, "1 1 5".data] =
      from_file 2 i32_from_str_radix
        ["%%MatrixMarket matrix coordinate integer general".data,
         "1 1 1".data, "1 1 5".data] :=
  C4_amended_comment_transparency 2 i32_from_str_radix
    "%%MatrixMarket matrix coordinate integer general".data
    ["% note".data] ["1 1 1".data, "1 1 5".data]
    (by
      intro c hc
      simp only [List.mem_cons, List.not_mem_nil, or_false] at hc
      subst hc
      exact ⟨" note".data, by decide⟩)

theorem symInfo_fromStr_no_panic (s : List Char) : SymInfo.fromStr s ≠ .panic := by
  intro h
  simp only [SymInfo.fromStr] at h
  split at h
  · exact PResult.noConfusion h
  · split at h
    · exact PResult.noConfusion h
    · exact PResult.noConfusion h

theorem parse_banner_line_no_panic (l : List Char) : parse_banner_line l ≠ .panic := by
  intro h
  simp only [parse_banner_line] at h
  split at h
  · exact PResult.noConfusion h
  · split at h
    · exact PResult.noConfusion h
    · split at h
      · exact PResult.noConfusion h
      · exact PResult.noConfusion h
      · rename_i heq
        exact symInfo_fromStr_no_panic _ heq

theorem skip_comments_all_comment_or_blank :
    ∀ ls : List (List Char), (∀ l ∈ ls, comment_or_blank l) →
      skip_comments ls = .err .EarlyEOF ∨
      ∃ b rest, skip_comments ls = .ok (b ++ ['\n'], rest) ∧
        ∀ c ∈ b, isWS c = true := by
  intro ls
  induction ls with
  | nil => intro _; left; rfl
  | cons l ls ih =>
    intro h
    rcases h l (List.mem_cons_self l ls) with ⟨r, rfl⟩ | hblank
    · have hsw : starts_with_comment (('%' :: r) ++ ['\n']) = true := by
        simp [starts_with_comment]
      simp only [skip_comments, hsw, if_true]
      exact ih (fun x hx => h x (List.mem_cons_of_mem _ hx))
    · right
      have hsw : starts_with_comment (l ++ ['\n']) = false := by
        cases l with
        | nil => rfl
        | cons c cl =>
          have hc : isWS c = true := hblank c (List.mem_cons_self c cl)
          simp only [List.cons_append, starts_with_comment,
            decide_eq_false_iff_not]
          intro hcp
          subst hcp
          exact absurd hc (by decide)
      simp only [skip_comments, hsw, Bool.false_eq_true, if_false]
      exact ⟨l, ls, rfl, hblank⟩

theorem parse_sizes_blank_line (NDIM : Nat) (hn : 0 < NDIM) (buf : List Char)
    (h : ∀ c ∈ buf, isWS c = true) :
    parse_sizes NDIM buf = .err .EarlySizesHeaderEnd := by
  have hsplit : splitWhitespace buf = [] := splitWSAux_all_ws buf h
  unfold parse_sizes
  rw [hsplit]
  simp only [parse_sizes_loop]
  have hany : (List.replicate NDIM (0 : Nat)).any (fun d => d == 0) = true := by
    cases NDIM with
    | zero => exact absurd hn (by omega)
    | succ k => simp [List.replicate_succ]
  simp [hany]

/-- Claim C6, amended: the empty file fails with `EarlyEOF`, and a file
consisting only of comment lines or blank lines always fails — never
succeeding with an empty matrix — but, the first line being consumed as the
banner unconditionally, the error may be `EarlyBannerEnd`, `UnsupportedSym`,
`EarlySizesHeaderEnd` or `EarlyEOF` rather than always `EarlyEOF` (see the
counterexample). -/
theorem C6_amended_always_error {T : Type} (NDIM : Nat) (hn : 0 < NDIM)
    (parseT : List Char → Option T) :
    from_file NDIM parseT ([] : List (List Char)) = .err .EarlyEOF ∧
    ∀ lines : List (List Char), (∀ l ∈ lines, comment_or_blank l) →
      ∃ e, from_file NDIM parseT lines = .err e := by
  constructor
  · rfl
  · intro lines h
    cases lines with
    | nil => exact ⟨.EarlyEOF, rfl⟩
    | cons l ls =>
      cases hb : parse_banner_line l with
      | err e => exact ⟨e, by simp [from_file, parse_banner, hb]⟩
      | panic => exact absurd hb (parse_banner_line_no_panic l)
      | ok p =>
        obtain ⟨is_sparse, sym⟩ := p
        rcases skip_comments_all_comment_or_blank ls
            (fun x hx => h x (List.mem_cons_of_mem l hx)) with
          hskip | ⟨b, rest, hskip, hb2⟩
        · exact ⟨.EarlyEOF, by simp [from_file, parse_banner, hb, hskip]⟩
        · have hsz : parse_sizes NDIM (b ++ ['\n']) = .err .EarlySizesHeaderEnd :=
            parse_sizes_blank_line NDIM hn (b ++ ['\n'])
              (by
                intro c hc
                rcases List.mem_append.mp hc with hc | hc
                · exact hb2 c hc
                · rw [List.mem_singleton] at hc
                  subst hc
                  decide)
          exact ⟨.EarlySizesHeaderEnd,
            by simp [from_file, parse_banner, hb, hskip, hsz]⟩

/-- Claim C6, amended, witness: a comment line followed by a blank line. -/
theorem C6_amended_witness :
    ∃ e, from_file 2 i32_from_str_radix ["% hi".data, "".data] = .err e :=
  (C6_amended_always_error 2 (by decide) i32_from_str_radix).2
    ["% hi".data, "".data]
    (by
      intro l hl
      simp only [List.mem_cons, List.not_mem_nil, or_false] at hl
      rcases hl with rfl | rfl
      · exact Or.inl ⟨" hi".data, by decide⟩
      · exact Or.inr (by decide))

theorem splitWSAux_ws_cons (w : Char) (hw : isWS w = true) (cs acc : List Char)
    (hacc : acc ≠ []) :
    splitWSAux (w :: cs) acc = acc.reverse :: splitWSAux cs [] := by
  simp only [splitWSAux, hw, if_true, if_neg hacc]

theorem splitWSAux_single_token (t : List Char) (hne : t ≠ [])
    (hws : ∀ c ∈ t, isWS c = false) :
    splitWSAux (t ++ ['\n']) [] = [t] := by
  rw [splitWSAux_token_run t ['\n'] [] hws, List.append_nil,
    splitWSAux_ws_cons '\n' (by decide) [] t.reverse (by simpa using hne),
    List.reverse_reverse]
  rfl

/-- Claim C7, amended: the 1-based to 0-based round-trip holds for all
coordinate tokens whose values fit in `usize`: a sparse body line
`ti ⬝ tj ⬝ tv` whose coordinate tokens parse as `i, j ≥ 1` (both below
`2^64`, as `usize::from_str` enforces) and whose value token parses, parses
to exactly the coordinate pair `[i - 1, j - 1]`; coordinates of `2^64` or
more are instead rejected with `InvalidCoordinate` (see the
counterexample). -/
theorem C7_amended_roundtrip {T : Type} (parseT : List Char → Option T)
    (ti tj tv : List Char) (i j : Nat) (v : T)
    (hi : usizeFromStr ti = some i) (hi1 : 1 ≤ i)
    (hj : usizeFromStr tj = some j) (hj1 : 1 ≤ j)
    (hv : parseT tv = some v) (hv1 : tv ≠ []) (hv2 : ∀ c ∈ tv, isWS c = false) :
    parse_coords_val 2 parseT (ti ++ ' ' :: (tj ++ ' ' :: (tv ++ ['\n']))) =
      .ok ([i - 1, j - 1], v) := by
  obtain ⟨hine, hiws⟩ := usizeFromStr_shape hi
  obtain ⟨hjne, hjws⟩ := usizeFromStr_shape hj
  have harith_i : (i + (USIZE_BOUND - 1)) % USIZE_BOUND = i - 1 := by
    have hb := usizeFromStr_bound hi
    unfold USIZE_BOUND at hb ⊢
    omega
  have harith_j : (j + (USIZE_BOUND - 1)) % USIZE_BOUND = j - 1 := by
    have hb := usizeFromStr_bound hj
    unfold USIZE_BOUND at hb ⊢
    omega
  have hsplit : splitWhitespace (ti ++ ' ' :: (tj ++ ' ' :: (tv ++ ['\n']))) =
      [ti, tj, tv] := by
    unfold splitWhitespace
    rw [splitWSAux_token_run ti _ [] hiws, List.append_nil,
      splitWSAux_ws_cons ' ' (by decide) _ _ (by simpa using hine),
      List.reverse_reverse,
      splitWSAux_token_run tj _ [] hjws, List.append_nil,
      splitWSAux_ws_cons ' ' (by decide) _ _ (by simpa using hjne),
      List.reverse_reverse,
      splitWSAux_single_token tv hv1 hv2]
  unfold parse_coords_val
  rw [hsplit]
  simp [parse_coords_val_loop, hi, hj, hv, List.set, harith_i, harith_j]

/-- Claim C7, amended, witness at the line `3 7 5`. -/
theorem C7_amended_witness :
    parse_coords_val 2 i32_from_str_radix
      ("3".data ++ ' ' :: ("7".data ++ ' ' :: ("5".data ++ ['\n']))) =
      .ok ([2, 6], (5 : Int)) :=
  C7_amended_roundtrip i32_from_str_radix "3".data "7".data "5".data 3 7 5
    (by decide) (by decide) (by decide) (by decide) (by decide) (by decide)
    (by decide)
